import Mathlib

/-!
# Game list frame of the shadPS4 Qt front-end

A shallow embedding of `src/qt_gui/game_list_frame.cpp`.

* `QString` values are lists of characters; the Qt string functions the file
  calls (`trimmed`, `split`, `toInt`, `arg`) are modelled after the Qt
  documentation.
* The widget, the shared game list and the files the widget reads and writes
  are fields of one state record, `GameListFrame`, threaded through the
  member functions.
* Indexing a `QStringList` or the game vector out of range is undefined
  behaviour in C++; the embedding returns `none` there.
* `CompareStringsAscending`, `CompareStringsDescending` and `BlurImage` are
  declared in headers outside this file and are parameters of the embedding.
-/

namespace ShadPS4

/-! ## Strings -/

/-- Qt string, as its list of characters. -/
abbrev QString := List Char

/-- Character test `QChar::isSpace`: the ASCII white space characters, NEL,
the no-break space and the Unicode separators. -/
def isSpace (c : Char) : Bool :=
  let n := c.toNat
  (9 ≤ n && n ≤ 13) || n == 32 || n == 0x85 || n == 0xA0 || n == 0x1680 ||
    (0x2000 ≤ n && n ≤ 0x200A) || n == 0x2028 || n == 0x2029 || n == 0x202F ||
    n == 0x205F || n == 0x3000

/-- Qt `QString::trimmed`: white space removed from the start and the end. -/
def trimmed (s : QString) : QString :=
  (s.dropWhile isSpace).rdropWhile isSpace

/-- Qt `QString::split(sep)` with the default `Qt::KeepEmptyParts`: every
occurrence of `sep` ends a part, so the result is never empty. -/
def split (sep : Char) : QString → List QString
  | [] => [[]]
  | c :: cs =>
    if c = sep then [] :: split sep cs
    else
      match split sep cs with
      | [] => [[c]]
      | p :: ps => (c :: p) :: ps

/-! ## Play time lookup (`GetPlayTime`, lines 257-285) -/

/-- The `while (!file.atEnd())` loop of `GetPlayTime` over the lines still
to be read; `playTime` is empty until a line matches and the loop breaks. -/
def GetPlayTimeLoop (serial : QString) : List QString → QString
  | [] => []
  | line :: rest =>
    let lineStr := trimmed line
    let parts := split ' ' lineStr
    if 2 ≤ parts.length then
      match parts with
      | fileSerial :: time :: _ =>
        if fileSerial = serial then time else GetPlayTimeLoop serial rest
      | _ => GetPlayTimeLoop serial rest
    else GetPlayTimeLoop serial rest

/-- Member `GameListFrame::GetPlayTime`; `file` is `none` when
`play_time.txt` cannot be opened and the list of its lines otherwise. -/
def GetPlayTime (file : Option (List QString)) (serial : QString) : QString :=
  match file with
  | none => []
  | some lines => GetPlayTimeLoop serial lines

/-- The space-separated fields of a line, after trimming. -/
def lineFields (line : QString) : List QString :=
  split ' ' (trimmed line)

/-- A line has at least two fields and its first field is `serial`. -/
def lineMatches (serial : QString) (line : QString) : Bool :=
  decide (2 ≤ (lineFields line).length) && decide ((lineFields line).head? = some serial)

/-- The second field of a line, empty when there is none. -/
def secondField (line : QString) : QString :=
  (lineFields line).getD 1 []

/-- Play time lookup as the specification words it: the second field of the
first matching line, and the empty string when no line matches. -/
def GetPlayTimeSpec (lines : List QString) (serial : QString) : QString :=
  match lines.find? (lineMatches serial) with
  | some line => secondField line
  | none => []

/-! ## Numbers in strings -/

/-- Decimal value of a digit character. -/
def digitValue (c : Char) : Option Nat :=
  if 48 ≤ c.toNat ∧ c.toNat ≤ 57 then some (c.toNat - 48) else none

/-- Value of a string of decimal digits, `none` when a character is no digit. -/
def parseDigits : List Char → Nat → Option Nat
  | [], acc => some acc
  | c :: cs, acc =>
    match digitValue c with
    | none => none
    | some d => parseDigits cs (10 * acc + d)

/-- A leading sign of a number: whether it is a minus, and the text after it. -/
def splitSign : QString → Bool × QString
  | '-' :: r => (true, r)
  | '+' :: r => (false, r)
  | r => (false, r)

/-- Qt `QString::toInt()` in base 10: surrounding white space is skipped, a
sign may lead, and the result is 0 when the text is no number or does not fit
a 32-bit `int`. -/
def toInt (s : QString) : Int :=
  let t := trimmed s
  let signed := splitSign t
  match (if signed.2.isEmpty then none else parseDigits signed.2 0) with
  | none => 0
  | some v =>
    let n : Int := if signed.1 then -(v : Int) else (v : Int)
    if -2147483648 ≤ n ∧ n ≤ 2147483647 then n else 0

/-- Decimal text of an `int`, as `QString::arg(int)` substitutes it for `%1`. -/
def number (n : Int) : QString :=
  match n with
  | Int.ofNat k => Nat.toDigits 10 k
  | Int.negSucc k => '-' :: Nat.toDigits 10 (k + 1)

/-! ## Images and the game record -/

/-- Rectangle of an image (`QRect`). -/
structure QRect where
  x : Int
  y : Int
  width : Int
  height : Int
deriving DecidableEq, Repr

/-- Pixel data of a loaded image. -/
structure Pixels where
  width : Nat
  height : Nat
  argb : List Nat
deriving DecidableEq, Repr

/-- Qt image: `none` is the null image (`QImage::isNull()`), which is also
what loading a missing or unreadable file gives. -/
abbrev QImage := Option Pixels

/-- Qt `QImage::isNull`. -/
def isNull (img : QImage) : Bool := img.isNone

/-- Qt `QImage::rect`: the full rectangle of the image. -/
def imageRect (img : QImage) : QRect :=
  match img with
  | none => ⟨0, 0, 0, 0⟩
  | some p => ⟨0, 0, p.width, p.height⟩

/-- Record `GameInfo`, with the fields this file reads or writes. -/
structure GameInfo where
  path : QString
  pic_path : QString
  snd0_path : QString
  icon : QImage
  size : QString
  name : QString
  serial : QString
  version : QString
  region : QString
  fw : QString
  play_time : QString
deriving DecidableEq, Repr

/-! ## The widget -/

/-- What a table cell shows. `SetTableItem` puts a text label in the cell,
centred or not; `SetRegionFlag` a flag picture from the resources;
`ResizeIcons` the game icon scaled to the icon size. -/
inductive Cell where
  | label (text : QString) (centered : Bool)
  | flag (resource : QString)
  | icon (image : QImage) (iconSize : Int)
deriving DecidableEq, Repr

/-- Sort order shown by the header (`Qt::SortOrder`). -/
inductive SortOrder where
  | AscendingOrder
  | DescendingOrder
deriving DecidableEq, Repr

/-- Palette of the widget: the default one, or the one
`RefreshListBackgroundImage` builds, whose base brush is `image` scaled to
`size` and whose highlight colour is `highlight` (red, green, blue, alpha). -/
inductive Palette where
  | standard
  | background (image : QImage) (size : Int × Int) (highlight : Nat × Nat × Nat × Nat)
deriving DecidableEq, Repr

/-- A call to the background music player. -/
inductive MusicCall where
  | stopMusic
  | playMusic (snd0path : QString)
deriving DecidableEq, Repr

/-- Table item handle (`QTableWidgetItem*`): the cell it sits in. -/
structure QTableWidgetItem where
  row : Nat
  column : Nat
deriving DecidableEq, Repr

/-- State the member functions of `GameListFrame` read and write: the shared
game list, the widget's own members, the table, and the files and settings
outside the widget. -/
structure GameListFrame where
  /-- Shared list `m_game_info->m_games`. -/
  m_games : List GameInfo
  icon_size : Int
  ListSortedAsc : Bool
  backgroundImage : QImage
  /-- Number of rows of the table (`rowCount()`). -/
  rowCount : Nat
  /-- Content of the cell at a row and a column, `none` when it has no item. -/
  cells : Nat → Nat → Option Cell
  /-- Sort indicator of the horizontal header. -/
  sortIndicator : Option (Int × SortOrder)
  palette : Palette
  /-- Size of the widget (`size()`). -/
  widgetSize : Int × Int
  /-- Calls made to `BackgroundMusicPlayer`, oldest first. -/
  music : List MusicCall
  /-- Lines of `play_time.txt` in the user directory, `none` when it cannot be opened. -/
  playTimeFile : Option (List QString)
  /-- Image that loading the file at a path gives. -/
  pictures : QString → QImage
  /-- Image that loading `pic1.png` under a serial in the metadata directory gives. -/
  blurredCache : QString → QImage
  /-- Setting `Config::getPlayBGM()`. -/
  playBGM : Bool

/-- Number of columns, set once by the constructor (`setColumnCount(9)`). -/
def columnCount : Nat := 9

/-- Qt `QTableWidget::setItem` together with `setCellWidget`: both ignore a
cell outside the table. -/
def setItem (row column : Nat) (c : Cell) (fr : GameListFrame) : GameListFrame :=
  { fr with
    cells := fun r k =>
      if (row < fr.rowCount ∧ column < columnCount) ∧ r = row ∧ k = column then some c
      else fr.cells r k }

/-- Qt `QTableWidget::setRowCount`: rows from `n` on are dropped. -/
def setRowCount (n : Nat) (fr : GameListFrame) : GameListFrame :=
  { fr with rowCount := n, cells := fun r k => if r < n then fr.cells r k else none }

/-- Qt `QTableWidget::clearContents`: every item is removed, the dimensions stay. -/
def clearContents (fr : GameListFrame) : GameListFrame :=
  { fr with cells := fun _ _ => none }

/-- Qt `QTableWidget::item`: the item of a cell, null when the cell is outside
the table or holds none. -/
def item (fr : GameListFrame) (row column : Int) : Option QTableWidgetItem :=
  if 0 ≤ row ∧ 0 ≤ column ∧ row.toNat < fr.rowCount ∧ column.toNat < columnCount then
    (fr.cells row.toNat column.toNat).map (fun _ => ⟨row.toNat, column.toNat⟩)
  else none

/-- Member `SetTableItem` (lines 206-228): a label with the text, centred
unless the column is 8 or 1. -/
def SetTableItem (row column : Nat) (itemStr : QString) (fr : GameListFrame) : GameListFrame :=
  setItem row column (Cell.label itemStr (column != 8 && column != 1)) fr

/-- Member `SetRegionFlag` (lines 230-255). -/
def SetRegionFlag (row column : Nat) (itemStr : QString) (fr : GameListFrame) : GameListFrame :=
  let resource : String :=
    if itemStr = "Japan".toList then ":images/flag_jp.png"
    else if itemStr = "Europe".toList then ":images/flag_eu.png"
    else if itemStr = "USA".toList then ":images/flag_us.png"
    else if itemStr = "Asia".toList then ":images/flag_china.png"
    else if itemStr = "World".toList then ":images/flag_world.png"
    else ":images/flag_unk.png"
  setItem row column (Cell.flag resource.toList) fr

/-- The range-for loop of `ResizeIcons` over the games from `index` on. -/
def ResizeIconsLoop (iconSize : Int) : Nat → List GameInfo → GameListFrame → GameListFrame
  | _, [], fr => fr
  | index, game :: rest, fr =>
    ResizeIconsLoop iconSize (index + 1) rest (setItem index 0 (Cell.icon game.icon iconSize) fr)

/-- Member `ResizeIcons` (lines 192-204); the section sizes of the headers are
not part of the state. -/
def ResizeIcons (iconSize : Int) (fr : GameListFrame) : GameListFrame :=
  ResizeIconsLoop iconSize 0 fr.m_games fr

/-- Text of the play time column built from the three numbers (lines 115-129). -/
def formatPlayTime (hours minutes seconds : Int) : QString :=
  let formattedPlayTime0 : QString := []
  let formattedPlayTime1 :=
    if 0 < hours then formattedPlayTime0 ++ (number hours ++ "h ".toList) else formattedPlayTime0
  let formattedPlayTime2 :=
    if 0 < minutes then formattedPlayTime1 ++ (number minutes ++ "m ".toList)
    else formattedPlayTime1
  let formattedPlayTime := trimmed formattedPlayTime2
  if formattedPlayTime.isEmpty then number seconds ++ "s".toList else formattedPlayTime

/-- Lines 110-129 for a non-empty looked-up time: the text shown in column 7,
or `none` when `timeParts[0]`, `timeParts[1]` or `timeParts[2]` is out of range. -/
def playTimeText (playTime : QString) : Option QString :=
  let timeParts := split ':' playTime
  match timeParts[0]?, timeParts[1]?, timeParts[2]? with
  | some p0, some p1, some p2 => some (formatPlayTime (toInt p0) (toInt p1) (toInt p2))
  | _, _, _ => none

/-- Body of the loop of `PopulateGameList` for row `i` and its game (lines
98-134): the new game record and the new table, `none` on an out-of-range
index. -/
def PopulateRow (i : Nat) (g : GameInfo) (fr : GameListFrame) :
    Option (GameInfo × GameListFrame) :=
  let fr := SetTableItem i 1 g.name fr
  let fr := SetTableItem i 2 g.serial fr
  let fr := SetRegionFlag i 3 g.region fr
  let fr := SetTableItem i 4 g.fw fr
  let fr := SetTableItem i 5 g.size fr
  let fr := SetTableItem i 6 g.version fr
  let playTime := GetPlayTime fr.playTimeFile g.serial
  if playTime.isEmpty then
    let g1 := { g with play_time := "0:00:00".toList }
    let fr := SetTableItem i 7 "Never Played".toList fr
    some (g1, SetTableItem i 8 g.path fr)
  else
    match playTimeText playTime with
    | none => none
    | some shown =>
      let g1 := { g with play_time := playTime }
      let fr := SetTableItem i 7 shown fr
      some (g1, SetTableItem i 8 g.path fr)

/-- The `for` loop of `PopulateGameList` from row `i` on, over the games of
those rows: the games as the loop leaves them, and the table. -/
def PopulateLoop : Nat → List GameInfo → GameListFrame → Option (List GameInfo × GameListFrame)
  | _, [], fr => some ([], fr)
  | i, g :: rest, fr => do
    let (g1, fr1) ← PopulateRow i g fr
    let (rest1, fr2) ← PopulateLoop (i + 1) rest fr1
    pure (g1 :: rest1, fr2)

/-- Member `PopulateGameList` (lines 93-136). -/
def PopulateGameList (fr : GameListFrame) : Option GameListFrame :=
  let fr := setRowCount fr.m_games.length fr
  let fr := ResizeIcons fr.icon_size fr
  match PopulateLoop 0 fr.m_games fr with
  | none => none
  | some (games, fr1) => some { fr1 with m_games := games }

/-! ## Sorting -/

/-- One insertion step: `x` goes before the first element it compares before. -/
def orderedInsert {α : Type} (comp : α → α → Bool) (x : α) : List α → List α
  | [] => [x]
  | y :: ys => if comp x y then x :: y :: ys else y :: orderedInsert comp x ys

/-- Library function `std::sort` with a comparator, modelled by insertion
sort. The C++ standard fixes its result, for a strict weak ordering, up to the
order of equivalent elements. -/
def stdSort {α : Type} (comp : α → α → Bool) : List α → List α
  | [] => []
  | x :: xs => orderedInsert comp x (stdSort comp xs)

/-- Comparator of the header: `(a, b, columnIndex)`. -/
abbrev Comparator := GameInfo → GameInfo → Int → Bool

/-- Member `SortNameAscending` (lines 178-183). -/
def SortNameAscending (CompareStringsAscending : Comparator) (columnIndex : Int)
    (fr : GameListFrame) : GameListFrame :=
  { fr with m_games := stdSort (fun a b => CompareStringsAscending a b columnIndex) fr.m_games }

/-- Member `SortNameDescending` (lines 185-190). -/
def SortNameDescending (CompareStringsDescending : Comparator) (columnIndex : Int)
    (fr : GameListFrame) : GameListFrame :=
  { fr with m_games := stdSort (fun a b => CompareStringsDescending a b columnIndex) fr.m_games }

/-- The `if`/`else` of the `sectionClicked` handler (lines 55-63). -/
def sectionClickedSort (CompareStringsAscending CompareStringsDescending : Comparator)
    (columnIndex : Int) (fr : GameListFrame) : GameListFrame :=
  if fr.ListSortedAsc then
    let fr := SortNameDescending CompareStringsDescending columnIndex fr
    let fr := { fr with sortIndicator := some (columnIndex, SortOrder.DescendingOrder) }
    { fr with ListSortedAsc := false }
  else
    let fr := SortNameAscending CompareStringsAscending columnIndex fr
    let fr := { fr with sortIndicator := some (columnIndex, SortOrder.AscendingOrder) }
    { fr with ListSortedAsc := true }

/-- The `sectionClicked` handler (lines 54-66). -/
def sectionClicked (CompareStringsAscending CompareStringsDescending : Comparator)
    (columnIndex : Int) (fr : GameListFrame) : Option GameListFrame :=
  let fr := sectionClickedSort CompareStringsAscending CompareStringsDescending columnIndex fr
  let fr := clearContents fr
  PopulateGameList fr

/-! ## Background image and music -/

/-- Member `RefreshListBackgroundImage` (lines 167-176). -/
def RefreshListBackgroundImage (fr : GameListFrame) : GameListFrame :=
  if !isNull fr.backgroundImage then
    { fr with palette := Palette.background fr.backgroundImage fr.widgetSize (135, 206, 235, 40) }
  else fr

/-- Qt `QImage::save` to `pic1.png` under a serial: a null image is not
saved and the call returns false, otherwise the file holds the image. -/
def saveBlurred (img : QImage) (serial : QString) (fr : GameListFrame) : GameListFrame × Bool :=
  if isNull img then (fr, false)
  else
    ({ fr with blurredCache := fun s => if s = serial then img else fr.blurredCache s }, true)

/-- Signature of `GameListUtils::BlurImage(image, rect, radius)`. -/
abbrev Blur := QImage → QRect → Int → QImage

/-- Member `SetListBackgroundImage` (lines 138-165); `none` when the row of
the item is outside the game list. -/
def SetListBackgroundImage (BlurImage : Blur) (it : Option QTableWidgetItem)
    (fr : GameListFrame) : Option GameListFrame :=
  match it with
  | none => some fr
  | some i =>
    match fr.m_games[i.row]? with
    | none => none
    | some game =>
      let pic1Path := game.pic_path
      let fr := { fr with backgroundImage := fr.blurredCache game.serial }
      if isNull fr.backgroundImage then
        let image := fr.pictures pic1Path
        let fr := { fr with backgroundImage := BlurImage image (imageRect image) 16 }
        let fr := (saveBlurred fr.backgroundImage game.serial fr).1
        some (RefreshListBackgroundImage fr)
      else some (RefreshListBackgroundImage fr)

/-- Member `PlayBackgroundMusic` (lines 83-91). -/
def PlayBackgroundMusic (it : Option QTableWidgetItem) (fr : GameListFrame) :
    Option GameListFrame :=
  match it with
  | none => some { fr with music := fr.music ++ [MusicCall.stopMusic] }
  | some i =>
    if !fr.playBGM then some { fr with music := fr.music ++ [MusicCall.stopMusic] }
    else
      match fr.m_games[i.row]? with
      | none => none
      | some game => some { fr with music := fr.music ++ [MusicCall.playMusic game.snd0_path] }

/-- Member `onCurrentCellChanged` (lines 73-81). -/
def onCurrentCellChanged (BlurImage : Blur) (currentRow currentColumn : Int)
    (_previousRow _previousColumn : Int) (fr : GameListFrame) : Option GameListFrame :=
  match item fr currentRow currentColumn with
  | none => some fr
  | some i =>
    match SetListBackgroundImage BlurImage (some i) fr with
    | none => none
    | some fr1 => PlayBackgroundMusic (some i) fr1

/-! ## Predicates used by the statements -/

/-- A looked-up play time that `PopulateGameList` handles without an
out-of-range index: empty, or with at least three parts between colons. -/
def playTimeWellFormed (playTime : QString) : Bool :=
  playTime.isEmpty || decide (3 ≤ (split ':' playTime).length)

/-- Every game of the list has a well-formed play time in `play_time.txt`. -/
def PlayTimesWellFormed (fr : GameListFrame) : Bool :=
  fr.m_games.all (fun g => playTimeWellFormed (GetPlayTime fr.playTimeFile g.serial))

/-- The game record with the play time `PopulateGameList` stores in it. -/
def refreshPlayTime (file : Option (List QString)) (g : GameInfo) : GameInfo :=
  if (GetPlayTime file g.serial).isEmpty then { g with play_time := "0:00:00".toList }
  else { g with play_time := GetPlayTime file g.serial }

/-- The text `PopulateGameList` shows in column 7 for a game. -/
def shownPlayTime (file : Option (List QString)) (g : GameInfo) : QString :=
  if (GetPlayTime file g.serial).isEmpty then "Never Played".toList
  else (playTimeText (GetPlayTime file g.serial)).getD []

/-- Row `r` of the table shows the game `g` in columns 1 to 8. -/
def RowShows (fr : GameListFrame) (r : Nat) (g : GameInfo) : Prop :=
  fr.cells r 1 = some (Cell.label g.name false) ∧
  fr.cells r 2 = some (Cell.label g.serial true) ∧
  (∃ resource, fr.cells r 3 = some (Cell.flag resource)) ∧
  fr.cells r 4 = some (Cell.label g.fw true) ∧
  fr.cells r 5 = some (Cell.label g.size true) ∧
  fr.cells r 6 = some (Cell.label g.version true) ∧
  fr.cells r 7 = some (Cell.label (shownPlayTime fr.playTimeFile g) true) ∧
  fr.cells r 8 = some (Cell.label g.path false)

/-- List-index alignment: as many rows as games, and row `i` shows the name,
serial, firmware, size, version and path of `m_games[i]` in columns 1, 2, 4,
5, 6 and 8 and its icon, scaled to the icon size, in column 0. -/
def Aligned (fr : GameListFrame) : Prop :=
  fr.rowCount = fr.m_games.length ∧
  ∀ (i : Nat) (h : i < fr.m_games.length),
    fr.cells i 0 = some (Cell.icon (fr.m_games.get ⟨i, h⟩).icon fr.icon_size) ∧
    fr.cells i 1 = some (Cell.label (fr.m_games.get ⟨i, h⟩).name false) ∧
    fr.cells i 2 = some (Cell.label (fr.m_games.get ⟨i, h⟩).serial true) ∧
    fr.cells i 4 = some (Cell.label (fr.m_games.get ⟨i, h⟩).fw true) ∧
    fr.cells i 5 = some (Cell.label (fr.m_games.get ⟨i, h⟩).size true) ∧
    fr.cells i 6 = some (Cell.label (fr.m_games.get ⟨i, h⟩).version true) ∧
    fr.cells i 8 = some (Cell.label (fr.m_games.get ⟨i, h⟩).path false)

/-- The second frame differs from the first in its cells only. -/
def OnlyCells (fr fr1 : GameListFrame) : Prop :=
  fr1 = { fr with cells := fr1.cells }

/-- The eight cells `PopulateGameList` sets in row `i`, with `shown` the
text of column 7. -/
def fillRow (i : Nat) (g : GameInfo) (shown : QString) (fr : GameListFrame) : GameListFrame :=
  SetTableItem i 8 g.path (SetTableItem i 7 shown (SetTableItem i 6 g.version
    (SetTableItem i 5 g.size (SetTableItem i 4 g.fw (SetRegionFlag i 3 g.region
      (SetTableItem i 2 g.serial (SetTableItem i 1 g.name fr)))))))

/-- Requirement `Compare` of the C++ standard on the comparator of
`std::sort`: a strict weak ordering. -/
structure StrictWeakOrdering {α : Type} (comp : α → α → Bool) : Prop where
  irrefl : ∀ a, comp a a = false
  trans : ∀ a b c, comp a b = true → comp b c = true → comp a c = true
  incomp_trans : ∀ a b c, comp a b = false → comp b a = false → comp b c = false →
    comp c b = false → comp a c = false ∧ comp c a = false

/-- No later element of the list compares strictly before an earlier one. -/
def OrderedBy {α : Type} (comp : α → α → Bool) (l : List α) : Prop :=
  l.Pairwise (fun earlier later => comp later earlier = false)

/-! ## Sample inputs -/

/-- A game with serial `CUSA00001` and a one-pixel icon. -/
def sampleGame : GameInfo :=
  { path := "/games/CUSA00001".toList
    pic_path := "/games/CUSA00001/sce_sys/pic1.png".toList
    snd0_path := "/games/CUSA00001/sce_sys/snd0.at9".toList
    icon := some ⟨1, 1, [255]⟩
    size := "1.5 GB".toList
    name := "Sample".toList
    serial := "CUSA00001".toList
    version := "01.00".toList
    region := "USA".toList
    fw := "9.00".toList
    play_time := [] }

/-- A second game, with serial `CUSA00002` and a shorter name. -/
def otherGame : GameInfo :=
  { sampleGame with
    name := "Demo".toList
    serial := "CUSA00002".toList
    path := "/games/CUSA00002".toList }

/-- A freshly constructed widget over two games, with a `play_time.txt`
that records one hour, thirty minutes and five seconds for the first game. -/
def sampleFrame : GameListFrame :=
  { m_games := [sampleGame, otherGame]
    icon_size := 36
    ListSortedAsc := true
    backgroundImage := none
    rowCount := 0
    cells := fun _ _ => none
    sortIndicator := none
    palette := Palette.standard
    widgetSize := (800, 600)
    music := []
    playTimeFile := some ["CUSA00001 1:30:05".toList ++ [Char.ofNat 10]]
    pictures := fun _ => some ⟨2, 1, [1, 2]⟩
    blurredCache := fun _ => none
    playBGM := false }

/-- The sample widget with a `play_time.txt` whose line for the first game
holds no colon: `CUSA00001 5`. -/
def shortTimeFrame : GameListFrame :=
  { sampleFrame with playTimeFile := some ["CUSA00001 5".toList ++ [Char.ofNat 10]] }

/-- A blur that returns its input; stands for `BlurImage` in the examples. -/
def sampleBlur : Blur := fun image _ _ => image

/-- Comparator of the examples: shorter names first, whatever the column. -/
def sampleAscending : Comparator := fun a b _ => decide (a.name.length < b.name.length)

/-- Comparator of the examples: longer names first, whatever the column. -/
def sampleDescending : Comparator := fun a b _ => decide (b.name.length < a.name.length)

/-! ### Lemmas on the lookup -/

theorem split_ne_nil (sep : Char) (s : QString) : split sep s ≠ [] := by
  induction s with
  | nil => simp [split]
  | cons c cs ih =>
    unfold split
    split_ifs
    · simp
    · cases h : split sep cs <;> simp

theorem GetPlayTimeLoop_cons_match (serial line : QString) (rest : List QString)
    (h : lineMatches serial line = true) :
    GetPlayTimeLoop serial (line :: rest) = secondField line := by
  unfold lineMatches lineFields at h
  simp only [Bool.and_eq_true, decide_eq_true_eq] at h
  obtain ⟨h2, hh⟩ := h
  unfold GetPlayTimeLoop secondField lineFields
  simp only
  cases hp : split ' ' (trimmed line) with
  | nil => simp [hp] at h2
  | cons a t =>
    cases t with
    | nil => simp [hp] at h2
    | cons b u =>
      rw [hp] at hh
      simp at hh
      simp [hh]

theorem GetPlayTimeLoop_cons_skip (serial line : QString) (rest : List QString)
    (h : lineMatches serial line = false) :
    GetPlayTimeLoop serial (line :: rest) = GetPlayTimeLoop serial rest := by
  unfold lineMatches lineFields at h
  simp only [GetPlayTimeLoop]
  cases hp : split ' ' (trimmed line) with
  | nil => simp
  | cons a t =>
    cases t with
    | nil => simp
    | cons b u =>
      rw [hp] at h
      simp at h
      simp [h]

theorem GetPlayTimeLoop_eq_spec (serial : QString) (lines : List QString) :
    GetPlayTimeLoop serial lines = GetPlayTimeSpec lines serial := by
  induction lines with
  | nil => simp [GetPlayTimeLoop, GetPlayTimeSpec]
  | cons line rest ih =>
    cases h : lineMatches serial line with
    | true =>
      rw [GetPlayTimeLoop_cons_match serial line rest h]
      simp [GetPlayTimeSpec, List.find?, h]
    | false =>
      rw [GetPlayTimeLoop_cons_skip serial line rest h, ih]
      simp [GetPlayTimeSpec, List.find?, h]

theorem GetPlayTimeLoop_append_match (serial line : QString) (before after : List QString)
    (hb : ∀ x ∈ before, lineMatches serial x = false) (h : lineMatches serial line = true) :
    GetPlayTimeLoop serial (before ++ line :: after) = secondField line := by
  induction before with
  | nil => exact GetPlayTimeLoop_cons_match serial line after h
  | cons x xs ih =>
    rw [List.cons_append, GetPlayTimeLoop_cons_skip serial x _ (hb x (by simp))]
    exact ih (fun y hy => hb y (by simp [hy]))

theorem GetPlayTimeLoop_no_match (serial : QString) (lines : List QString)
    (hb : ∀ x ∈ lines, lineMatches serial x = false) :
    GetPlayTimeLoop serial lines = [] := by
  induction lines with
  | nil => simp [GetPlayTimeLoop]
  | cons x xs ih =>
    rw [GetPlayTimeLoop_cons_skip serial x _ (hb x (by simp))]
    exact ih (fun y hy => hb y (by simp [hy]))

/-! ### Lemmas on the table -/

theorem OnlyCells.refl (fr : GameListFrame) : OnlyCells fr fr := rfl

theorem OnlyCells.trans {a b c : GameListFrame} (h1 : OnlyCells a b) (h2 : OnlyCells b c) :
    OnlyCells a c := by
  unfold OnlyCells at *
  rw [h2, h1]

theorem setItem_onlyCells (row column : Nat) (c : Cell) (fr : GameListFrame) :
    OnlyCells fr (setItem row column c fr) := by
  rfl

theorem OnlyCells.rowCount {a b : GameListFrame} (h : OnlyCells a b) :
    b.rowCount = a.rowCount := by
  rw [h]

theorem OnlyCells.playTimeFile {a b : GameListFrame} (h : OnlyCells a b) :
    b.playTimeFile = a.playTimeFile := by
  rw [h]

theorem setItem_rowCount (row column : Nat) (c : Cell) (fr : GameListFrame) :
    (setItem row column c fr).rowCount = fr.rowCount :=
  (setItem_onlyCells row column c fr).rowCount

theorem setItem_playTimeFile (row column : Nat) (c : Cell) (fr : GameListFrame) :
    (setItem row column c fr).playTimeFile = fr.playTimeFile :=
  (setItem_onlyCells row column c fr).playTimeFile

theorem setItem_cells (row column : Nat) (c : Cell) (fr : GameListFrame)
    (h : row < fr.rowCount) (hc : column < columnCount) (r k : Nat) :
    (setItem row column c fr).cells r k =
      if r = row ∧ k = column then some c else fr.cells r k := by
  simp [setItem, h, hc]

theorem setItem_cells_other (row column : Nat) (c : Cell) (fr : GameListFrame) (r k : Nat)
    (h : r ≠ row ∨ k ≠ column) :
    (setItem row column c fr).cells r k = fr.cells r k := by
  have hne : ¬ ((row < fr.rowCount ∧ column < columnCount) ∧ r = row ∧ k = column) := by tauto
  simp [setItem, hne]

theorem ResizeIconsLoop_spec (sz : Int) :
    ∀ (gs : List GameInfo) (index : Nat) (fr : GameListFrame),
      index + gs.length ≤ fr.rowCount →
      OnlyCells fr (ResizeIconsLoop sz index gs fr) ∧
      (∀ r k, (r < index ∨ k ≠ 0) → (ResizeIconsLoop sz index gs fr).cells r k = fr.cells r k) ∧
      (∀ (j : Nat) (hj : j < gs.length),
        (ResizeIconsLoop sz index gs fr).cells (index + j) 0 =
          some (Cell.icon (gs.get ⟨j, hj⟩).icon sz)) := by
  intro gs
  induction gs with
  | nil =>
    intro index fr _
    refine ⟨OnlyCells.refl fr, fun _ _ _ => rfl, ?_⟩
    intro j hj
    simp at hj
  | cons g rest ih =>
    intro index fr hle
    have hlen : (g :: rest).length = rest.length + 1 := rfl
    have hidx : index < fr.rowCount := by omega
    have hle1 : index + 1 + rest.length ≤ (setItem index 0 (Cell.icon g.icon sz) fr).rowCount := by
      rw [setItem_rowCount]; omega
    obtain ⟨h1, h2, h3⟩ := ih (index + 1) (setItem index 0 (Cell.icon g.icon sz) fr) hle1
    refine ⟨(setItem_onlyCells _ _ _ fr).trans h1, ?_, ?_⟩
    · intro r k hrk
      show (ResizeIconsLoop sz (index + 1) rest _).cells r k = _
      rw [h2 r k (by omega)]
      exact setItem_cells_other _ _ _ _ _ _ (by omega)
    · intro j hj
      show (ResizeIconsLoop sz (index + 1) rest _).cells (index + j) 0 = _
      cases j with
      | zero =>
        rw [h2 (index + 0) 0 (by omega)]
        rw [setItem_cells _ _ _ _ hidx (by decide)]
        simp
      | succ j =>
        have hj1 : j < rest.length := by simpa using hj
        have := h3 j hj1
        rw [show index + (j + 1) = index + 1 + j by omega]
        rw [this]
        rfl

theorem fillRow_onlyCells (i : Nat) (g : GameInfo) (shown : QString) (fr : GameListFrame) :
    OnlyCells fr (fillRow i g shown fr) := by
  unfold fillRow SetTableItem SetRegionFlag
  exact (setItem_onlyCells _ _ _ _).trans <| (setItem_onlyCells _ _ _ _).trans <|
    (setItem_onlyCells _ _ _ _).trans <| (setItem_onlyCells _ _ _ _).trans <|
    (setItem_onlyCells _ _ _ _).trans <| (setItem_onlyCells _ _ _ _).trans <|
    (setItem_onlyCells _ _ _ _).trans (setItem_onlyCells _ _ _ _)

theorem fillRow_cells_other (i : Nat) (g : GameInfo) (shown : QString) (fr : GameListFrame)
    (r k : Nat) (h : r ≠ i ∨ k = 0) :
    (fillRow i g shown fr).cells r k = fr.cells r k := by
  unfold fillRow SetTableItem SetRegionFlag
  rw [setItem_cells_other _ _ _ _ _ _ (by omega), setItem_cells_other _ _ _ _ _ _ (by omega),
    setItem_cells_other _ _ _ _ _ _ (by omega), setItem_cells_other _ _ _ _ _ _ (by omega),
    setItem_cells_other _ _ _ _ _ _ (by omega), setItem_cells_other _ _ _ _ _ _ (by omega),
    setItem_cells_other _ _ _ _ _ _ (by omega), setItem_cells_other _ _ _ _ _ _ (by omega)]

theorem fillRow_cells (i : Nat) (g : GameInfo) (shown : QString) (fr : GameListFrame)
    (h : i < fr.rowCount) :
    (fillRow i g shown fr).cells i 1 = some (Cell.label g.name false) ∧
    (fillRow i g shown fr).cells i 2 = some (Cell.label g.serial true) ∧
    (∃ resource, (fillRow i g shown fr).cells i 3 = some (Cell.flag resource)) ∧
    (fillRow i g shown fr).cells i 4 = some (Cell.label g.fw true) ∧
    (fillRow i g shown fr).cells i 5 = some (Cell.label g.size true) ∧
    (fillRow i g shown fr).cells i 6 = some (Cell.label g.version true) ∧
    (fillRow i g shown fr).cells i 7 = some (Cell.label shown true) ∧
    (fillRow i g shown fr).cells i 8 = some (Cell.label g.path false) := by
  unfold fillRow SetTableItem SetRegionFlag
  simp [setItem_cells, setItem_rowCount, h, columnCount]

theorem playTimeText_eq_some (p p0 p1 p2 : QString) (rest : List QString)
    (h : split ':' p = p0 :: p1 :: p2 :: rest) :
    playTimeText p = some (formatPlayTime (toInt p0) (toInt p1) (toInt p2)) := by
  simp [playTimeText, h]

theorem playTimeText_eq_none (p : QString) (h : (split ':' p).length < 3) :
    playTimeText p = none := by
  unfold playTimeText
  rcases hs : split ':' p with _ | ⟨a, _ | ⟨b, _ | ⟨c, t⟩⟩⟩
  · simp
  · simp
  · simp
  · rw [hs] at h
    simp at h
    omega

theorem playTimeText_of_three (p : QString) (h : 3 ≤ (split ':' p).length) :
    ∃ shown, playTimeText p = some shown := by
  rcases hs : split ':' p with _ | ⟨a, _ | ⟨b, _ | ⟨c, t⟩⟩⟩
  · rw [hs] at h; simp at h
  · rw [hs] at h; simp at h
  · rw [hs] at h; simp at h
  · exact ⟨_, playTimeText_eq_some p a b c t hs⟩

theorem PopulateRow_eq (i : Nat) (g : GameInfo) (fr : GameListFrame) :
    PopulateRow i g fr =
      if playTimeWellFormed (GetPlayTime fr.playTimeFile g.serial) = true then
        some (refreshPlayTime fr.playTimeFile g, fillRow i g (shownPlayTime fr.playTimeFile g) fr)
      else none := by
  have hfile : (SetTableItem i 6 g.version (SetTableItem i 5 g.size (SetTableItem i 4 g.fw
      (SetRegionFlag i 3 g.region (SetTableItem i 2 g.serial
        (SetTableItem i 1 g.name fr)))))).playTimeFile = fr.playTimeFile := by
    simp [SetTableItem, SetRegionFlag, setItem_playTimeFile]
  unfold PopulateRow
  simp only [hfile]
  by_cases hE : (GetPlayTime fr.playTimeFile g.serial).isEmpty = true
  · simp [hE, playTimeWellFormed, refreshPlayTime, shownPlayTime, fillRow]
  · by_cases h3 : 3 ≤ (split ':' (GetPlayTime fr.playTimeFile g.serial)).length
    · obtain ⟨shown, hs⟩ := playTimeText_of_three _ h3
      simp [hE, h3, hs, playTimeWellFormed, refreshPlayTime, shownPlayTime, fillRow]
    · have hn := playTimeText_eq_none (GetPlayTime fr.playTimeFile g.serial) (by omega)
      simp [hE, h3, hn, playTimeWellFormed]

theorem PopulateLoop_none :
    ∀ (gs : List GameInfo) (i : Nat) (fr : GameListFrame),
      (gs.all fun g => playTimeWellFormed (GetPlayTime fr.playTimeFile g.serial)) = false →
      PopulateLoop i gs fr = none := by
  intro gs
  induction gs with
  | nil => intro i fr h; simp at h
  | cons g rest ih =>
    intro i fr h
    rw [PopulateLoop, PopulateRow_eq]
    by_cases hg : playTimeWellFormed (GetPlayTime fr.playTimeFile g.serial) = true
    · have hrest : (rest.all fun g =>
          playTimeWellFormed (GetPlayTime fr.playTimeFile g.serial)) = false := by
        rw [List.all_cons, hg] at h
        simpa using h
      have hf := (fillRow_onlyCells i g (shownPlayTime fr.playTimeFile g) fr).playTimeFile
      rw [← hf] at hrest
      simp only [hg, if_true]
      simp [ih (i + 1) _ hrest]
    · simp [hg]

theorem PopulateLoop_some :
    ∀ (gs : List GameInfo) (i : Nat) (fr : GameListFrame),
      i + gs.length ≤ fr.rowCount →
      (gs.all fun g => playTimeWellFormed (GetPlayTime fr.playTimeFile g.serial)) = true →
      ∃ fr1, PopulateLoop i gs fr = some (gs.map (refreshPlayTime fr.playTimeFile), fr1) ∧
        OnlyCells fr fr1 ∧
        (∀ r k, (r < i ∨ k = 0) → fr1.cells r k = fr.cells r k) ∧
        ∀ (j : Nat) (hj : j < gs.length), RowShows fr1 (i + j) (gs.get ⟨j, hj⟩) := by
  intro gs
  induction gs with
  | nil =>
    intro i fr _ _
    refine ⟨fr, rfl, OnlyCells.refl fr, fun _ _ _ => rfl, ?_⟩
    intro j hj
    simp at hj
  | cons g rest ih =>
    intro i fr hle hall
    have hlen : (g :: rest).length = rest.length + 1 := rfl
    have hidx : i < fr.rowCount := by omega
    rw [List.all_cons, Bool.and_eq_true] at hall
    obtain ⟨hg, hrest⟩ := hall
    have hoc := fillRow_onlyCells i g (shownPlayTime fr.playTimeFile g) fr
    have hf := hoc.playTimeFile
    have hrc := hoc.rowCount
    rw [← hf] at hrest
    obtain ⟨fr1, hloop, hoc1, hkeep, hrows⟩ :=
      ih (i + 1) (fillRow i g (shownPlayTime fr.playTimeFile g) fr) (by rw [hrc]; omega) hrest
    refine ⟨fr1, ?_, hoc.trans hoc1, ?_, ?_⟩
    · rw [PopulateLoop, PopulateRow_eq]
      simp only [hg, if_true]
      simp [hloop, hf]
    · intro r k hrk
      rw [hkeep r k (by omega)]
      exact fillRow_cells_other _ _ _ _ _ _ (by omega)
    · intro j hj
      cases j with
      | zero =>
        have hc := fillRow_cells i g (shownPlayTime fr.playTimeFile g) fr hidx
        have hfile1 : fr1.playTimeFile = fr.playTimeFile := (hoc.trans hoc1).playTimeFile
        unfold RowShows
        simp only [Nat.add_zero, hkeep i _ (Or.inl (Nat.lt_succ_self i)), hfile1]
        exact hc
      | succ j =>
        have hj1 : j < rest.length := by simpa using hj
        have := hrows j hj1
        rw [show i + (j + 1) = i + 1 + j by omega]
        exact this

theorem refreshPlayTime_fields (file : Option (List QString)) (g : GameInfo) :
    (refreshPlayTime file g).icon = g.icon ∧ (refreshPlayTime file g).name = g.name ∧
    (refreshPlayTime file g).serial = g.serial ∧ (refreshPlayTime file g).fw = g.fw ∧
    (refreshPlayTime file g).size = g.size ∧ (refreshPlayTime file g).version = g.version ∧
    (refreshPlayTime file g).path = g.path := by
  unfold refreshPlayTime
  split_ifs <;> simp

theorem PopulateGameList_none (fr : GameListFrame) (h : PlayTimesWellFormed fr = false) :
    PopulateGameList fr = none := by
  have hoc := (ResizeIconsLoop_spec fr.icon_size fr.m_games 0
    (setRowCount fr.m_games.length fr) (by simp [setRowCount])).1
  have hgames : (ResizeIconsLoop fr.icon_size 0 fr.m_games
      (setRowCount fr.m_games.length fr)).m_games = fr.m_games := by
    rw [hoc]; rfl
  have hfile : (ResizeIconsLoop fr.icon_size 0 fr.m_games
      (setRowCount fr.m_games.length fr)).playTimeFile = fr.playTimeFile := by
    rw [hoc]; rfl
  have hloop := PopulateLoop_none fr.m_games 0
    (ResizeIconsLoop fr.icon_size 0 fr.m_games (setRowCount fr.m_games.length fr))
    (by rw [hfile]; exact h)
  unfold PopulateGameList ResizeIcons
  simp only
  rw [show (setRowCount fr.m_games.length fr).icon_size = fr.icon_size from rfl,
    show (setRowCount fr.m_games.length fr).m_games = fr.m_games from rfl, hgames, hloop]

theorem PopulateGameList_some (fr : GameListFrame) (h : PlayTimesWellFormed fr = true) :
    ∃ fr1, PopulateGameList fr = some fr1 ∧
      fr1 = { fr with
        m_games := fr.m_games.map (refreshPlayTime fr.playTimeFile)
        rowCount := fr.m_games.length
        cells := fr1.cells } ∧
      ∀ (i : Nat) (hi : i < fr.m_games.length),
        fr1.cells i 0 = some (Cell.icon (fr.m_games.get ⟨i, hi⟩).icon fr.icon_size) ∧
        RowShows fr1 i (fr.m_games.get ⟨i, hi⟩) := by
  obtain ⟨hoc, _, hicons⟩ := ResizeIconsLoop_spec fr.icon_size fr.m_games 0
    (setRowCount fr.m_games.length fr) (by simp [setRowCount])
  have hgames : (ResizeIconsLoop fr.icon_size 0 fr.m_games
      (setRowCount fr.m_games.length fr)).m_games = fr.m_games := by
    rw [hoc]; rfl
  have hfile : (ResizeIconsLoop fr.icon_size 0 fr.m_games
      (setRowCount fr.m_games.length fr)).playTimeFile = fr.playTimeFile := by
    rw [hoc]; rfl
  have hrc : (ResizeIconsLoop fr.icon_size 0 fr.m_games
      (setRowCount fr.m_games.length fr)).rowCount = fr.m_games.length := by
    rw [hoc]; rfl
  obtain ⟨fr1, hloop, hoc1, hkeep, hrows⟩ := PopulateLoop_some fr.m_games 0
    (ResizeIconsLoop fr.icon_size 0 fr.m_games (setRowCount fr.m_games.length fr))
    (by rw [hrc]; omega) (by rw [hfile]; exact h)
  rw [hfile] at hloop
  refine ⟨{ fr1 with m_games := fr.m_games.map (refreshPlayTime fr.playTimeFile) }, ?_, ?_, ?_⟩
  · unfold PopulateGameList ResizeIcons
    simp only
    rw [show (setRowCount fr.m_games.length fr).icon_size = fr.icon_size from rfl,
      show (setRowCount fr.m_games.length fr).m_games = fr.m_games from rfl, hgames, hloop]
  · have h2 := hoc.trans hoc1
    unfold OnlyCells at h2
    rw [h2]
    rfl
  · intro i hi
    constructor
    · show fr1.cells i 0 = _
      rw [hkeep i 0 (Or.inr rfl)]
      have := hicons i hi
      rw [Nat.zero_add] at this
      exact this
    · have := hrows i hi
      rw [Nat.zero_add] at this
      exact this

theorem PopulateGameList_isSome (fr : GameListFrame) :
    (PopulateGameList fr).isSome = PlayTimesWellFormed fr := by
  cases h : PlayTimesWellFormed fr with
  | true =>
    obtain ⟨fr1, h1, _⟩ := PopulateGameList_some fr h
    rw [h1]; rfl
  | false =>
    rw [PopulateGameList_none fr h]; rfl

theorem PopulateGameList_aligned (fr fr1 : GameListFrame) (h : PopulateGameList fr = some fr1) :
    Aligned fr1 ∧ fr1.ListSortedAsc = fr.ListSortedAsc ∧ fr1.sortIndicator = fr.sortIndicator ∧
    fr1.playTimeFile = fr.playTimeFile ∧ fr1.icon_size = fr.icon_size ∧
    fr1.m_games = fr.m_games.map (refreshPlayTime fr.playTimeFile) := by
  have hwf : PlayTimesWellFormed fr = true := by
    rw [← PopulateGameList_isSome, h]; rfl
  obtain ⟨fr2, h2, heq, hcells⟩ := PopulateGameList_some fr hwf
  rw [h] at h2
  cases h2
  have hg : fr1.m_games = fr.m_games.map (refreshPlayTime fr.playTimeFile) := by rw [heq]
  have hr : fr1.rowCount = fr.m_games.length := by rw [heq]
  have hi : fr1.icon_size = fr.icon_size := by rw [heq]
  refine ⟨⟨?_, ?_⟩, by rw [heq], by rw [heq], by rw [heq], hi, hg⟩
  · rw [hr, hg, List.length_map]
  · intro i hlt
    have hlt0 : i < fr.m_games.length := by rw [hg, List.length_map] at hlt; exact hlt
    have hget : fr1.m_games.get ⟨i, hlt⟩ =
        refreshPlayTime fr.playTimeFile (fr.m_games.get ⟨i, hlt0⟩) := by
      simp [hg]
    obtain ⟨hc0, hc1, hc2, _, hc4, hc5, hc6, _, hc8⟩ := hcells i hlt0
    obtain ⟨e1, e2, e3, e4, e5, e6, e7⟩ :=
      refreshPlayTime_fields fr.playTimeFile (fr.m_games.get ⟨i, hlt0⟩)
    rw [hget, e1, e2, e3, e4, e5, e6, e7, hi]
    exact ⟨hc0, hc1, hc2, hc4, hc5, hc6, hc8⟩

/-! ### Lemmas on sorting -/

theorem orderedInsert_perm {α : Type} (comp : α → α → Bool) (x : α) (l : List α) :
    (orderedInsert comp x l).Perm (x :: l) := by
  induction l with
  | nil => exact List.Perm.refl _
  | cons y ys ih =>
    unfold orderedInsert
    split_ifs
    · exact List.Perm.refl _
    · exact (List.Perm.cons y ih).trans (List.Perm.swap x y ys)

theorem stdSort_perm {α : Type} (comp : α → α → Bool) (l : List α) :
    (stdSort comp l).Perm l := by
  induction l with
  | nil => exact List.Perm.refl _
  | cons x xs ih =>
    unfold stdSort
    exact (orderedInsert_perm comp x _).trans (List.Perm.cons x ih)

theorem orderedInsert_ordered {α : Type} (comp : α → α → Bool) (hc : StrictWeakOrdering comp)
    (x : α) (l : List α) (hl : OrderedBy comp l) : OrderedBy comp (orderedInsert comp x l) := by
  unfold OrderedBy at *
  induction l with
  | nil => simp [orderedInsert]
  | cons y ys ih =>
    rw [List.pairwise_cons] at hl
    obtain ⟨hy, hys⟩ := hl
    unfold orderedInsert
    by_cases hxy : comp x y = true
    · simp only [hxy, if_true]
      refine List.Pairwise.cons ?_ (List.Pairwise.cons hy hys)
      intro z hz
      cases hzx : comp z x with
      | false => rfl
      | true =>
        have hzy := hc.trans z x y hzx hxy
        rcases List.mem_cons.mp hz with rfl | hmem
        · rw [hc.irrefl z] at hzy
          exact absurd hzy (by simp)
        · rw [hy z hmem] at hzy
          exact absurd hzy (by simp)
    · simp only [hxy]
      refine List.Pairwise.cons ?_ (ih hys)
      intro z hz
      have hz1 : z ∈ x :: ys := (orderedInsert_perm comp x ys).mem_iff.mp hz
      rcases List.mem_cons.mp hz1 with rfl | hmem
      · simpa using hxy
      · exact hy z hmem

theorem stdSort_ordered {α : Type} (comp : α → α → Bool) (hc : StrictWeakOrdering comp)
    (l : List α) : OrderedBy comp (stdSort comp l) := by
  induction l with
  | nil => exact List.Pairwise.nil
  | cons x xs ih =>
    unfold stdSort
    exact orderedInsert_ordered comp hc x _ ih

theorem all_eq_of_perm {α : Type} (f : α → Bool) {l1 l2 : List α} (h : l1.Perm l2) :
    l1.all f = l2.all f := by
  rw [Bool.eq_iff_iff, List.all_eq_true, List.all_eq_true]
  constructor
  · intro hall x hx
    exact hall x (h.mem_iff.mpr hx)
  · intro hall x hx
    exact hall x (h.mem_iff.mp hx)

theorem sectionClickedSort_wellFormed (A D : Comparator) (col : Int) (fr : GameListFrame) :
    PlayTimesWellFormed (clearContents (sectionClickedSort A D col fr)) =
      PlayTimesWellFormed fr := by
  unfold PlayTimesWellFormed sectionClickedSort clearContents SortNameAscending
    SortNameDescending
  cases fr.ListSortedAsc
  · exact all_eq_of_perm _ (stdSort_perm _ _)
  · exact all_eq_of_perm _ (stdSort_perm _ _)

theorem sectionClicked_some (A D : Comparator) (col : Int) (fr fr1 : GameListFrame)
    (h : sectionClicked A D col fr = some fr1) :
    Aligned fr1 ∧ fr1.ListSortedAsc = !fr.ListSortedAsc ∧
    fr1.sortIndicator = some (col,
      if fr.ListSortedAsc then SortOrder.DescendingOrder else SortOrder.AscendingOrder) ∧
    fr1.m_games = (if fr.ListSortedAsc then (SortNameDescending D col fr).m_games
      else (SortNameAscending A col fr).m_games).map (refreshPlayTime fr.playTimeFile) := by
  unfold sectionClicked at h
  obtain ⟨ha, hs, hi, _, _, hg⟩ := PopulateGameList_aligned _ _ h
  refine ⟨ha, ?_, ?_, ?_⟩
  · rw [hs]
    unfold clearContents sectionClickedSort
    cases fr.ListSortedAsc <;> rfl
  · rw [hi]
    unfold clearContents sectionClickedSort
    cases fr.ListSortedAsc <;> rfl
  · rw [hg]
    unfold clearContents sectionClickedSort SortNameAscending SortNameDescending
    cases fr.ListSortedAsc <;> rfl

/-! ### Lemmas on the play time text -/

theorem digitChar_not_space (k : Nat) (h : k < 10) : isSpace (Nat.digitChar k) = false := by
  interval_cases k <;> rfl

theorem toDigitsCore_not_space :
    ∀ (fuel n : Nat) (ds : List Char), (∀ c ∈ ds, isSpace c = false) →
      ∀ c ∈ Nat.toDigitsCore 10 fuel n ds, isSpace c = false := by
  intro fuel
  induction fuel with
  | zero => intro n ds h; simpa [Nat.toDigitsCore] using h
  | succ f ih =>
    intro n ds h
    have hd : ∀ c ∈ Nat.digitChar (n % 10) :: ds, isSpace c = false := by
      intro c hc
      rcases List.mem_cons.mp hc with rfl | hm
      · exact digitChar_not_space _ (Nat.mod_lt _ (by decide))
      · exact h c hm
    unfold Nat.toDigitsCore
    simp only
    split_ifs
    · exact hd
    · exact ih _ _ hd

theorem toDigitsCore_ne_nil :
    ∀ (fuel n : Nat) (ds : List Char), (0 < fuel ∨ ds ≠ []) →
      Nat.toDigitsCore 10 fuel n ds ≠ [] := by
  intro fuel
  induction fuel with
  | zero =>
    intro n ds h
    rcases h with h | h
    · omega
    · simpa [Nat.toDigitsCore] using h
  | succ f ih =>
    intro n ds _
    unfold Nat.toDigitsCore
    simp only
    split_ifs
    · simp
    · exact ih _ _ (Or.inr (by simp))

theorem number_not_space (n : Int) : ∀ c ∈ number n, isSpace c = false := by
  cases n with
  | ofNat k =>
    exact toDigitsCore_not_space _ _ _ (by simp)
  | negSucc k =>
    intro c hc
    rcases List.mem_cons.mp hc with rfl | hm
    · rfl
    · exact toDigitsCore_not_space _ _ _ (by simp) c hm

theorem number_ne_nil (n : Int) : number n ≠ [] := by
  cases n with
  | ofNat k => exact toDigitsCore_ne_nil _ _ _ (Or.inl (Nat.succ_pos k))
  | negSucc k => simp [number]

theorem trimmed_append_space (a : Char) (t : QString) (c : Char)
    (ha : isSpace a = false) (hc : isSpace c = false) :
    trimmed (a :: t ++ [c, ' ']) = a :: t ++ [c] := by
  unfold trimmed
  have h1 : List.dropWhile isSpace (a :: t ++ [c, ' ']) = a :: t ++ [c, ' '] := by
    simp [List.dropWhile, ha]
  rw [h1]
  have h2 : a :: t ++ [c, ' '] = (a :: t ++ [c]) ++ [' '] := by simp
  rw [h2, List.rdropWhile_concat_pos _ _ _ (by rfl : isSpace ' ' = true),
    List.rdropWhile_concat_neg _ _ _ (by simp [hc])]

theorem formatPlayTime_eq (h m s : Int) :
    formatPlayTime h m s =
      if 0 < h then
        if 0 < m then number h ++ "h ".toList ++ number m ++ "m".toList
        else number h ++ "h".toList
      else if 0 < m then number m ++ "m".toList
      else number s ++ "s".toList := by
  unfold formatPlayTime
  by_cases hh : 0 < h <;> by_cases hm : 0 < m
  · simp only [hh, hm, if_true, List.nil_append]
    obtain ⟨a, t, hat⟩ := List.exists_cons_of_ne_nil (number_ne_nil h)
    have ha : isSpace a = false := number_not_space h a (by rw [hat]; simp)
    have e : number h ++ "h ".toList ++ (number m ++ "m ".toList) =
        a :: (t ++ 'h' :: ' ' :: number m) ++ ['m', ' '] := by
      rw [hat]; simp
    rw [e, trimmed_append_space a _ 'm' ha rfl, hat]
    simp
  · simp only [hh, hm, if_true, if_false, List.nil_append]
    obtain ⟨a, t, hat⟩ := List.exists_cons_of_ne_nil (number_ne_nil h)
    have ha : isSpace a = false := number_not_space h a (by rw [hat]; simp)
    have e : number h ++ "h ".toList = a :: t ++ ['h', ' '] := by
      rw [hat]; simp
    rw [e, trimmed_append_space a _ 'h' ha rfl, hat]
    simp
  · simp only [hh, hm, if_true, if_false, List.nil_append]
    obtain ⟨a, t, hat⟩ := List.exists_cons_of_ne_nil (number_ne_nil m)
    have ha : isSpace a = false := number_not_space m a (by rw [hat]; simp)
    have e : number m ++ "m ".toList = a :: t ++ ['m', ' '] := by
      rw [hat]; simp
    rw [e, trimmed_append_space a _ 'm' ha rfl, hat]
    simp
  · simp [hh, hm, trimmed]

theorem parseDigits_none (c : Char) (hc : digitValue c = none) :
    ∀ (l : List Char) (acc : Nat), c ∈ l → parseDigits l acc = none := by
  intro l
  induction l with
  | nil => intro acc h; simp at h
  | cons x xs ih =>
    intro acc h
    unfold parseDigits
    cases hx : digitValue x with
    | none => rfl
    | some d =>
      rcases List.mem_cons.mp h with rfl | hm
      · rw [hc] at hx; cases hx
      · exact ih _ hm

theorem splitSign_mem (t : QString) (c : Char) (hmem : c ∈ t) (hminus : c ≠ '-')
    (hplus : c ≠ '+') : c ∈ (splitSign t).2 := by
  unfold splitSign
  split
  · rcases List.mem_cons.mp hmem with h | h
    · exact absurd h hminus
    · exact h
  · rcases List.mem_cons.mp hmem with h | h
    · exact absurd h hplus
    · exact h
  · exact hmem

theorem toInt_not_number (s : QString) (c : Char) (hmem : c ∈ trimmed s)
    (hc : digitValue c = none) (hminus : c ≠ '-') (hplus : c ≠ '+') : toInt s = 0 := by
  have hr := splitSign_mem (trimmed s) c hmem hminus hplus
  have hne : (splitSign (trimmed s)).2 ≠ [] := List.ne_nil_of_mem hr
  unfold toInt
  simp [hne, parseDigits_none c hc _ 0 hr]

theorem PopulateGameList_play_time (fr fr1 : GameListFrame) (h : PopulateGameList fr = some fr1) :
    fr1.m_games.length = fr.m_games.length ∧
    ∀ (i : Nat) (h0 : i < fr.m_games.length) (h1 : i < fr1.m_games.length),
      ((GetPlayTime fr.playTimeFile (fr.m_games.get ⟨i, h0⟩).serial = [] →
        (fr1.m_games.get ⟨i, h1⟩).play_time = "0:00:00".toList ∧
        fr1.cells i 7 = some (Cell.label "Never Played".toList true)) ∧
      (GetPlayTime fr.playTimeFile (fr.m_games.get ⟨i, h0⟩).serial ≠ [] →
        (fr1.m_games.get ⟨i, h1⟩).play_time =
          GetPlayTime fr.playTimeFile (fr.m_games.get ⟨i, h0⟩).serial)) := by
  have hwf : PlayTimesWellFormed fr = true := by
    rw [← PopulateGameList_isSome, h]; rfl
  obtain ⟨fr2, h2, heq, hcells⟩ := PopulateGameList_some fr hwf
  rw [h] at h2
  cases h2
  have hg : fr1.m_games = fr.m_games.map (refreshPlayTime fr.playTimeFile) := by rw [heq]
  have hfile : fr1.playTimeFile = fr.playTimeFile := by rw [heq]
  refine ⟨by rw [hg, List.length_map], ?_⟩
  intro i h0 h1
  have hget : fr1.m_games.get ⟨i, h1⟩ =
      refreshPlayTime fr.playTimeFile (fr.m_games.get ⟨i, h0⟩) := by
    simp [hg]
  obtain ⟨_, _, _, _, _, _, _, hc7, _⟩ := hcells i h0
  rw [hfile] at hc7
  rw [hget, hc7]
  generalize fr.m_games.get ⟨i, h0⟩ = g
  constructor
  · intro he
    simp [refreshPlayTime, shownPlayTime, he]
  · intro hne
    have : (GetPlayTime fr.playTimeFile g.serial).isEmpty = false := by
      cases hl : GetPlayTime fr.playTimeFile g.serial with
      | nil => exact absurd hl hne
      | cons a t => rfl
    simp [refreshPlayTime, this]

theorem shownPlayTime_eq (file : Option (List QString)) (g : GameInfo) (p0 p1 p2 : QString)
    (rest : List QString) (hne : GetPlayTime file g.serial ≠ [])
    (hsplit : split ':' (GetPlayTime file g.serial) = p0 :: p1 :: p2 :: rest) :
    shownPlayTime file g = formatPlayTime (toInt p0) (toInt p1) (toInt p2) := by
  have hE : (GetPlayTime file g.serial).isEmpty = false := by
    cases hl : GetPlayTime file g.serial with
    | nil => exact absurd hl hne
    | cons a t => rfl
  unfold shownPlayTime
  rw [playTimeText_eq_some _ p0 p1 p2 rest hsplit, hE]
  rfl

theorem sampleAscending_swo (col : Int) :
    StrictWeakOrdering (fun a b => sampleAscending a b col) := by
  refine ⟨?_, ?_, ?_⟩
  · intro a; simp [sampleAscending]
  · intro a b c; simp only [sampleAscending, decide_eq_true_eq]; omega
  · intro a b c; simp only [sampleAscending, decide_eq_false_iff_not]; omega

theorem sampleDescending_swo (col : Int) :
    StrictWeakOrdering (fun a b => sampleDescending a b col) := by
  refine ⟨?_, ?_, ?_⟩
  · intro a; simp [sampleDescending]
  · intro a b c; simp only [sampleDescending, decide_eq_true_eq]; omega
  · intro a b c; simp only [sampleDescending, decide_eq_false_iff_not]; omega

/-! ## Claims on the lookup -/

/-- C1: over the lines of `play_time.txt`, `GetPlayTime` returns the second
space-separated field of the first line that has at least two fields and whose
first field is the serial; the lines after that first match do not influence
the result; and the result is empty when no line matches. -/
theorem GetPlayTime_first_match (lines : List QString) (serial : QString) :
    GetPlayTime (some lines) serial = GetPlayTimeSpec lines serial ∧
    (∀ (before after : List QString) (line : QString),
      lines = before ++ line :: after →
      (∀ x ∈ before, lineMatches serial x = false) →
      lineMatches serial line = true →
      GetPlayTime (some lines) serial = secondField line ∧
      ∀ other : List QString,
        GetPlayTime (some (before ++ line :: other)) serial = GetPlayTime (some lines) serial) ∧
    ((∀ x ∈ lines, lineMatches serial x = false) → GetPlayTime (some lines) serial = []) := by
  refine ⟨GetPlayTimeLoop_eq_spec serial lines, ?_, ?_⟩
  · intro before after line hl hb hm
    subst hl
    refine ⟨GetPlayTimeLoop_append_match serial line before after hb hm, ?_⟩
    intro other
    show GetPlayTimeLoop serial _ = GetPlayTimeLoop serial _
    rw [GetPlayTimeLoop_append_match serial line before other hb hm,
      GetPlayTimeLoop_append_match serial line before after hb hm]
  · intro hb
    exact GetPlayTimeLoop_no_match serial lines hb

/-- C2: when `play_time.txt` is missing or cannot be opened, `GetPlayTime`
returns the empty string for every serial; its result type has no error
value, so none is reported. -/
theorem GetPlayTime_missing_file (serial : QString) :
    GetPlayTime none serial = [] := rfl


/-! ## Claims on the table -/

/-- C3: list-index alignment. `PopulateGameList` completes exactly when every
looked-up play time is well formed, and after it the table has as many rows as
the game list has entries and row `i` shows name, serial, firmware, size,
version and path of `m_games[i]` in columns 1, 2, 4, 5, 6 and 8 and its icon,
scaled to the icon size, in column 0. The same holds after every header click,
which sorts, clears and repopulates. -/
theorem PopulateGameList_alignment (CompareStringsAscending CompareStringsDescending : Comparator)
    (fr : GameListFrame) :
    (PopulateGameList fr).isSome = PlayTimesWellFormed fr ∧
    (∀ fr1, PopulateGameList fr = some fr1 → Aligned fr1) ∧
    (∀ columnIndex : Int,
      (sectionClicked CompareStringsAscending CompareStringsDescending columnIndex fr).isSome =
        PlayTimesWellFormed fr) ∧
    (∀ (columnIndex : Int) (fr1 : GameListFrame),
      sectionClicked CompareStringsAscending CompareStringsDescending columnIndex fr = some fr1 →
      Aligned fr1) := by
  refine ⟨PopulateGameList_isSome fr, ?_, ?_, ?_⟩
  · intro fr1 h
    exact (PopulateGameList_aligned fr fr1 h).1
  · intro columnIndex
    unfold sectionClicked
    rw [PopulateGameList_isSome, sectionClickedSort_wellFormed]
  · intro columnIndex fr1 h
    exact (sectionClicked_some _ _ _ _ _ h).1

/-- Witness of C3: populating the sample widget completes and leaves the
table aligned with its two games. -/
theorem PopulateGameList_alignment_witness :
    ∃ fr1, PopulateGameList sampleFrame = some fr1 ∧ Aligned fr1 := by
  have h := PopulateGameList_alignment sampleAscending sampleDescending sampleFrame
  have hs : (PopulateGameList sampleFrame).isSome = true := by decide
  obtain ⟨fr1, h1⟩ := Option.isSome_iff_exists.mp hs
  exact ⟨fr1, h1, h.2.1 fr1 h1⟩

/-! ## Claims on sorting -/

/-- C4: for every column index and every game list, when the column
comparators are strict weak orderings, `SortNameAscending` and
`SortNameDescending` leave a permutation of the list they found, ordered by
their comparator: no later element compares strictly before an earlier one. -/
theorem SortName_sorted_permutation
    (CompareStringsAscending CompareStringsDescending : Comparator)
    (columnIndex : Int) (fr : GameListFrame)
    (hAsc : StrictWeakOrdering (fun a b => CompareStringsAscending a b columnIndex))
    (hDesc : StrictWeakOrdering (fun a b => CompareStringsDescending a b columnIndex)) :
    (SortNameAscending CompareStringsAscending columnIndex fr).m_games.Perm fr.m_games ∧
    OrderedBy (fun a b => CompareStringsAscending a b columnIndex)
      (SortNameAscending CompareStringsAscending columnIndex fr).m_games ∧
    (SortNameDescending CompareStringsDescending columnIndex fr).m_games.Perm fr.m_games ∧
    OrderedBy (fun a b => CompareStringsDescending a b columnIndex)
      (SortNameDescending CompareStringsDescending columnIndex fr).m_games :=
  ⟨stdSort_perm _ _, stdSort_ordered _ hAsc _, stdSort_perm _ _, stdSort_ordered _ hDesc _⟩

/-- Witness of C4: the sample comparators on column 1 of the sample widget. -/
theorem SortName_sorted_permutation_witness :
    (SortNameAscending sampleAscending 1 sampleFrame).m_games.Perm sampleFrame.m_games ∧
    OrderedBy (fun a b => sampleAscending a b 1)
      (SortNameAscending sampleAscending 1 sampleFrame).m_games ∧
    (SortNameDescending sampleDescending 1 sampleFrame).m_games.Perm sampleFrame.m_games ∧
    OrderedBy (fun a b => sampleDescending a b 1)
      (SortNameDescending sampleDescending 1 sampleFrame).m_games :=
  SortName_sorted_permutation sampleAscending sampleDescending 1 sampleFrame
    (sampleAscending_swo 1) (sampleDescending_swo 1)

/-! ## Claims on the background image -/

/-- C5: `SetListBackgroundImage` on an item whose row holds `game`. When a
non-null image is stored under the serial of the game, the background becomes
that image and the cache is unchanged. Otherwise the background becomes
`BlurImage(cover, cover.rect(), 16)`, the cache holds that result under the
serial, and the entries of every other serial are unchanged. (`QImage::save`
does not write a null image; the cache then still holds no image under the
serial, which is the null result.) -/
theorem SetListBackgroundImage_cache (BlurImage : Blur) (it : QTableWidgetItem)
    (fr : GameListFrame) (game : GameInfo) (hrow : fr.m_games[it.row]? = some game) :
    ∃ fr1, SetListBackgroundImage BlurImage (some it) fr = some fr1 ∧
      (isNull (fr.blurredCache game.serial) = false →
        fr1.backgroundImage = fr.blurredCache game.serial ∧
        fr1.blurredCache = fr.blurredCache) ∧
      (isNull (fr.blurredCache game.serial) = true →
        fr1.backgroundImage =
          BlurImage (fr.pictures game.pic_path) (imageRect (fr.pictures game.pic_path)) 16 ∧
        fr1.blurredCache game.serial = fr1.backgroundImage ∧
        ∀ serial, serial ≠ game.serial → fr1.blurredCache serial = fr.blurredCache serial) := by
  unfold SetListBackgroundImage
  simp only [hrow]
  cases hnull : isNull (fr.blurredCache game.serial) with
  | false =>
    refine ⟨_, rfl, ?_, ?_⟩
    · intro _
      simp [RefreshListBackgroundImage, hnull]
    · intro h; cases h
  | true =>
    refine ⟨_, rfl, ?_, ?_⟩
    · intro h; cases h
    · intro _
      cases hb : isNull (BlurImage (fr.pictures game.pic_path)
          (imageRect (fr.pictures game.pic_path)) 16) with
      | true =>
        have e1 : BlurImage (fr.pictures game.pic_path)
            (imageRect (fr.pictures game.pic_path)) 16 = none := by
          simpa [isNull] using hb
        have e2 : fr.blurredCache game.serial = none := by
          simpa [isNull] using hnull
        simp [RefreshListBackgroundImage, saveBlurred, hb, e1, e2, isNull]
      | false =>
        refine ⟨?_, ?_, ?_⟩
        · simp [RefreshListBackgroundImage, saveBlurred, hb]
        · simp [RefreshListBackgroundImage, saveBlurred, hb]
        · intro serial hne
          simp [RefreshListBackgroundImage, saveBlurred, hb, hne]

/-- Witness of C5: the first row of the sample widget, whose cache is empty. -/
theorem SetListBackgroundImage_cache_witness :
    ∃ fr1, SetListBackgroundImage sampleBlur (some ⟨0, 1⟩) sampleFrame = some fr1 ∧
      (isNull (sampleFrame.blurredCache sampleGame.serial) = false →
        fr1.backgroundImage = sampleFrame.blurredCache sampleGame.serial ∧
        fr1.blurredCache = sampleFrame.blurredCache) ∧
      (isNull (sampleFrame.blurredCache sampleGame.serial) = true →
        fr1.backgroundImage =
          sampleBlur (sampleFrame.pictures sampleGame.pic_path)
            (imageRect (sampleFrame.pictures sampleGame.pic_path)) 16 ∧
        fr1.blurredCache sampleGame.serial = fr1.backgroundImage ∧
        ∀ serial, serial ≠ sampleGame.serial →
          fr1.blurredCache serial = sampleFrame.blurredCache serial) :=
  SetListBackgroundImage_cache sampleBlur ⟨0, 1⟩ sampleFrame sampleGame rfl

/-- C6: null inputs are tolerated without effect. `SetListBackgroundImage`
with no item leaves the whole state, so the background image, the cache and
the palette, unchanged; `RefreshListBackgroundImage` leaves the palette
unchanged when the background image is null; `onCurrentCellChanged` changes
nothing, so neither the background nor the music calls, when the current cell
has no item. -/
theorem null_inputs_tolerated (BlurImage : Blur) (fr : GameListFrame) :
    SetListBackgroundImage BlurImage none fr = some fr ∧
    (isNull fr.backgroundImage = true →
      (RefreshListBackgroundImage fr).palette = fr.palette ∧
      RefreshListBackgroundImage fr = fr) ∧
    (∀ currentRow currentColumn previousRow previousColumn : Int,
      item fr currentRow currentColumn = none →
      onCurrentCellChanged BlurImage currentRow currentColumn previousRow previousColumn fr =
        some fr) := by
  refine ⟨rfl, ?_, ?_⟩
  · intro h
    simp [RefreshListBackgroundImage, h]
  · intro r c pr pc h
    simp [onCurrentCellChanged, h]

/-- Witness of C6: the sample widget has a null background image and an empty
table, so refreshing and a cell change at row 0, column 0 leave it as it is. -/
theorem null_inputs_tolerated_witness :
    RefreshListBackgroundImage sampleFrame = sampleFrame ∧
    onCurrentCellChanged sampleBlur 0 0 (-1) (-1) sampleFrame = some sampleFrame :=
  ⟨((null_inputs_tolerated sampleBlur sampleFrame).2.1 rfl).2,
    (null_inputs_tolerated sampleBlur sampleFrame).2.2 0 0 (-1) (-1) rfl⟩

/-! ## Claims on the play time column -/

/-- C7, at the failing input: `play_time.txt` holds the line `CUSA00001 5`,
so the lookup for the first game is the non-empty string `5`; its split on
`:` has one part, `timeParts[1]` is out of range and `PopulateGameList` does
not reach the assignment of `play_time`. -/
theorem PopulateGameList_short_time_fails :
    GetPlayTime shortTimeFrame.playTimeFile sampleGame.serial = "5".toList ∧
    PopulateRow 0 sampleGame (setRowCount 2 shortTimeFrame) = none ∧
    PopulateGameList shortTimeFrame = none := by
  refine ⟨by decide, ?_, ?_⟩
  · rw [PopulateRow_eq]
    have : playTimeWellFormed
        (GetPlayTime (setRowCount 2 shortTimeFrame).playTimeFile sampleGame.serial) = false := by
      decide
    simp [this]
  · exact PopulateGameList_none shortTimeFrame (by decide)

/-- C8, at the failing input: with the line `CUSA00001 5` in `play_time.txt`
the lookup returns the non-empty string `5`, whose split on `:` has one part,
so parts 1 and 2 do not exist and no text is produced. -/
theorem playTime_split_too_short :
    GetPlayTime shortTimeFrame.playTimeFile sampleGame.serial ≠ [] ∧
    (split ':' (GetPlayTime shortTimeFrame.playTimeFile sampleGame.serial)).length = 1 ∧
    (split ':' (GetPlayTime shortTimeFrame.playTimeFile sampleGame.serial))[1]? = none ∧
    playTimeText (GetPlayTime shortTimeFrame.playTimeFile sampleGame.serial) = none := by
  decide

/-- C9: play time format. For a game at row `i` whose looked-up time is
non-empty and splits on `:` into parts `p0`, `p1`, `p2` (and maybe more), with
`h`, `m`, `s` their `toInt` values, `PopulateGameList` shows in column 7 the
text `<h>h <m>m` when `h > 0` and `m > 0`, `<h>h` when only `h > 0`, `<m>m`
when only `m > 0`, and `<s>s` otherwise; the seconds matter only in that last
case; the text is not empty and neither starts nor ends with white space; and
a part with a character that is no digit or sign parses to 0. -/
theorem PopulateGameList_play_time_format (fr : GameListFrame) (i : Nat)
    (hi : i < fr.m_games.length) (p0 p1 p2 : QString) (rest : List QString)
    (hwf : PlayTimesWellFormed fr = true)
    (hne : GetPlayTime fr.playTimeFile (fr.m_games.get ⟨i, hi⟩).serial ≠ [])
    (hsplit : split ':' (GetPlayTime fr.playTimeFile (fr.m_games.get ⟨i, hi⟩).serial) =
      p0 :: p1 :: p2 :: rest) :
    ∃ fr1 shown, PopulateGameList fr = some fr1 ∧
      fr1.cells i 7 = some (Cell.label shown true) ∧
      shown =
        (if 0 < toInt p0 then
          if 0 < toInt p1 then
            number (toInt p0) ++ "h ".toList ++ number (toInt p1) ++ "m".toList
          else number (toInt p0) ++ "h".toList
        else if 0 < toInt p1 then number (toInt p1) ++ "m".toList
        else number (toInt p2) ++ "s".toList) ∧
      ((0 < toInt p0 ∨ 0 < toInt p1) →
        ∀ seconds : Int, formatPlayTime (toInt p0) (toInt p1) seconds = shown) ∧
      shown ≠ [] ∧
      (∀ c ∈ shown.head?, isSpace c = false) ∧
      (∀ c ∈ shown.getLast?, isSpace c = false) ∧
      (∀ (part : QString) (c : Char), c ∈ trimmed part → digitValue c = none →
        c ≠ '-' → c ≠ '+' → toInt part = 0) := by
  obtain ⟨fr1, h1, heq, hcells⟩ := PopulateGameList_some fr hwf
  obtain ⟨_, _, _, _, _, _, _, hc7, _⟩ := hcells i hi
  have hfile : fr1.playTimeFile = fr.playTimeFile := by rw [heq]
  rw [hfile, shownPlayTime_eq _ _ p0 p1 p2 rest hne hsplit] at hc7
  refine ⟨fr1, formatPlayTime (toInt p0) (toInt p1) (toInt p2), h1, hc7,
    formatPlayTime_eq _ _ _, ?_, ?_, ?_, ?_, ?_⟩
  · intro hpos seconds
    rw [formatPlayTime_eq, formatPlayTime_eq]
    rcases hpos with hp | hp
    · simp [hp]
    · simp [hp]
  · rw [formatPlayTime_eq]
    split_ifs <;> simp
  · rw [formatPlayTime_eq]
    intro c hc
    have key : ∀ (n : Int) (tail : QString), c ∈ (number n ++ tail).head? →
        isSpace c = false := by
      intro n tail hmem
      obtain ⟨a, t, hat⟩ := List.exists_cons_of_ne_nil (number_ne_nil n)
      rw [hat] at hmem
      simp at hmem
      exact number_not_space n c (by rw [hat, ← hmem]; simp)
    split_ifs at hc
    · rw [List.append_assoc, List.append_assoc] at hc
      exact key _ _ hc
    · exact key _ _ hc
    · exact key _ _ hc
    · exact key _ _ hc
  · rw [formatPlayTime_eq]
    intro c hc
    split_ifs at hc
    · rw [show "m".toList = ['m'] from rfl, List.getLast?_append] at hc
      simp at hc
      rw [← hc]; rfl
    · rw [show "h".toList = ['h'] from rfl, List.getLast?_append] at hc
      simp at hc
      rw [← hc]; rfl
    · rw [show "m".toList = ['m'] from rfl, List.getLast?_append] at hc
      simp at hc
      rw [← hc]; rfl
    · rw [show "s".toList = ['s'] from rfl, List.getLast?_append] at hc
      simp at hc
      rw [← hc]; rfl
  · intro part c hmem hc hminus hplus
    exact toInt_not_number part c hmem hc hminus hplus

/-- Witness of C9: row 0 of the sample widget, whose looked-up time is
`1:30:05`, shows `1h 30m`. -/
theorem PopulateGameList_play_time_format_witness :
    ∃ fr1, PopulateGameList sampleFrame = some fr1 ∧
      fr1.cells 0 7 = some (Cell.label "1h 30m".toList true) := by
  obtain ⟨fr1, shown, h1, h7, hs, _⟩ :=
    PopulateGameList_play_time_format sampleFrame 0 (by decide)
      "1".toList "30".toList "05".toList [] (by decide) (by decide) (by decide)
  refine ⟨fr1, h1, ?_⟩
  rw [h7, hs]
  decide

/-! ## Claims on the header click -/

/-- C10: header-click state machine. For every clicked column and every
state, the `if`/`else` of the handler sorts with `SortNameDescending` when
`ListSortedAsc` was true and with `SortNameAscending` when it was false, and
flips the flag. The handler completes exactly when the play times are well
formed; after it the flag is the negation of the old one, the game list is
the list sorted in that direction (with the play times `PopulateGameList`
stores), the flag is true exactly when the sort indicator shows the ascending
sort of the clicked column, that is when the click sorted ascending; and a
second click, on any column, sorts in the other direction and restores the
flag. -/
theorem sectionClicked_alternates (CompareStringsAscending CompareStringsDescending : Comparator)
    (columnIndex : Int) (fr : GameListFrame) :
    (sectionClickedSort CompareStringsAscending CompareStringsDescending columnIndex fr).m_games =
      (if fr.ListSortedAsc then (SortNameDescending CompareStringsDescending columnIndex fr).m_games
        else (SortNameAscending CompareStringsAscending columnIndex fr).m_games) ∧
    (sectionClickedSort CompareStringsAscending CompareStringsDescending
      columnIndex fr).ListSortedAsc = !fr.ListSortedAsc ∧
    (sectionClicked CompareStringsAscending CompareStringsDescending columnIndex fr).isSome =
      PlayTimesWellFormed fr ∧
    ∀ fr1, sectionClicked CompareStringsAscending CompareStringsDescending columnIndex fr =
        some fr1 →
      fr1.ListSortedAsc = !fr.ListSortedAsc ∧
      fr1.m_games =
        (if fr.ListSortedAsc then
          (SortNameDescending CompareStringsDescending columnIndex fr).m_games
        else (SortNameAscending CompareStringsAscending columnIndex fr).m_games).map
          (refreshPlayTime fr.playTimeFile) ∧
      (fr1.ListSortedAsc = true ↔
        fr1.sortIndicator = some (columnIndex, SortOrder.AscendingOrder)) ∧
      (fr1.ListSortedAsc = false ↔
        fr1.sortIndicator = some (columnIndex, SortOrder.DescendingOrder)) ∧
      ∀ (secondColumn : Int) (fr2 : GameListFrame),
        sectionClicked CompareStringsAscending CompareStringsDescending secondColumn fr1 =
          some fr2 →
        fr2.ListSortedAsc = fr.ListSortedAsc ∧
        fr2.sortIndicator = some (secondColumn,
          if fr.ListSortedAsc then SortOrder.AscendingOrder else SortOrder.DescendingOrder) ∧
        fr2.m_games =
          (if fr.ListSortedAsc then
            (SortNameAscending CompareStringsAscending secondColumn fr1).m_games
          else (SortNameDescending CompareStringsDescending secondColumn fr1).m_games).map
            (refreshPlayTime fr1.playTimeFile) := by
  refine ⟨?_, ?_, ?_, ?_⟩
  · unfold sectionClickedSort SortNameAscending SortNameDescending
    cases fr.ListSortedAsc <;> rfl
  · unfold sectionClickedSort
    cases fr.ListSortedAsc <;> rfl
  · unfold sectionClicked
    rw [PopulateGameList_isSome, sectionClickedSort_wellFormed]
  · intro fr1 h
    obtain ⟨_, hflag, hind, hgames⟩ := sectionClicked_some _ _ _ _ _ h
    refine ⟨hflag, hgames, ?_, ?_, ?_⟩
    · rw [hflag, hind]
      cases fr.ListSortedAsc <;> simp
    · rw [hflag, hind]
      cases fr.ListSortedAsc <;> simp
    · intro secondColumn fr2 h2
      obtain ⟨_, hflag2, hind2, hgames2⟩ := sectionClicked_some _ _ _ _ _ h2
      rw [hflag] at hflag2 hind2 hgames2
      refine ⟨?_, ?_, ?_⟩
      · rw [hflag2]; simp
      · rw [hind2]
        cases fr.ListSortedAsc <;> simp
      · rw [hgames2]
        cases fr.ListSortedAsc <;> simp

/-- Witness of C10: a click on column 1 of the sample widget, whose flag is
true, completes, clears the flag and sorts descending. -/
theorem sectionClicked_alternates_witness :
    ∃ fr1, sectionClicked sampleAscending sampleDescending 1 sampleFrame = some fr1 ∧
      fr1.ListSortedAsc = false ∧
      fr1.sortIndicator = some (1, SortOrder.DescendingOrder) := by
  have h := sectionClicked_alternates sampleAscending sampleDescending 1 sampleFrame
  have hs : (sectionClicked sampleAscending sampleDescending 1 sampleFrame).isSome = true := by
    decide
  obtain ⟨fr1, h1⟩ := Option.isSome_iff_exists.mp hs
  obtain ⟨hflag, _, _, hdesc, _⟩ := h.2.2.2 fr1 h1
  exact ⟨fr1, h1, hflag, hdesc.mp hflag⟩

end ShadPS4
